import Mathlib

/-!
Verification of the bump-style arena allocator from src/Templates/baremetal.c
and the circular-buffer index macros from src/Templates/utils.h.

The C code computes with `unsigned long` values, which are 64-bit on the
target platforms of this template.  Machine arithmetic is therefore modelled
on Nat with explicit reduction modulo 2 ^ 64 at every operation that the C
abstract machine reduces.  Pointers returned by the allocator are modelled as
byte offsets into the static array heap_memory.
-/

/-- Modulus of the 64-bit unsigned integer type used by the C code. -/
def UINT64_MOD : Nat := 2 ^ 64

/-- HEAP_SIZE from baremetal.c line 78. -/
def HEAP_SIZE : Nat := 4096

/-- ALIGNMENT from baremetal.c line 79 (4-byte alignment). -/
def ALIGNMENT : Nat := 4

/-- Bitwise complement of a 64-bit unsigned value, as computed by the C
operator ~ on an unsigned long: xor with the all-ones word. -/
def compl64 (x : Nat) : Nat := (UINT64_MOD - 1) ^^^ (x % UINT64_MOD)

/-- Wrapping 64-bit unsigned subtraction, as computed by C unsigned
arithmetic. -/
def usub64 (a b : Nat) : Nat := (a + (UINT64_MOD - b % UINT64_MOD)) % UINT64_MOD

/-- ALIGN_UP macro from utils.h line 194:
(((x) + (align) - 1) & ~((align) - 1)), on 64-bit unsigned operands.
All uses in scope have align at least 1, so the Nat truncated subtraction
agrees with the C unsigned subtraction in align - 1 and x + align - 1. -/
def ALIGN_UP (x align : Nat) : Nat :=
  ((x + align - 1) % UINT64_MOD) &&& compl64 (align - 1)

/-- State of the static allocator of baremetal.c: the cursor heap_index
(line 82, an unsigned long) and the byte contents of the static array
heap_memory (line 81), indexed by byte offset. -/
structure HeapState where
  heap_index : Nat
  heap_memory : Nat → Nat

/-- my_memset from baremetal.c lines 23-29, acting on the byte store of the
heap region: writes (unsigned char)value, that is value mod 256, to num
consecutive offsets starting at p. -/
def my_memset (mem : Nat → Nat) (p value num : Nat) : Nat → Nat :=
  match num with
  | 0 => mem
  | n + 1 => my_memset (fun i => if i = p then value % 256 else mem i) (p + 1) value n

/-- simple_alloc from baremetal.c lines 91-102.  The requested size is first
rounded with the inline expression (size + ALIGNMENT - 1) & ~(ALIGNMENT - 1)
(line 93); the out-of-memory test and the cursor bump (lines 95 and 100) are
64-bit unsigned additions.  A successful call returns the byte offset of the
allocation (the C code returns the pointer heap_memory + heap_index). -/
def simple_alloc (st : HeapState) (size : Nat) : Option Nat × HeapState :=
  let size2 := ((size + ALIGNMENT - 1) % UINT64_MOD) &&& compl64 (ALIGNMENT - 1)
  if (st.heap_index + size2) % UINT64_MOD > HEAP_SIZE then
    (none, st)
  else
    (some st.heap_index, { st with heap_index := (st.heap_index + size2) % UINT64_MOD })

/-- reset_heap from baremetal.c lines 109-112: cursor back to 0 and the whole
buffer cleared through my_memset. -/
def reset_heap (st : HeapState) : HeapState :=
  { heap_index := 0, heap_memory := my_memset st.heap_memory 0 0 HEAP_SIZE }

/-- State of the static variables at program start: heap_index is 0 and the
static array heap_memory is zero-initialized (C semantics for statics). -/
def initial_state : HeapState :=
  { heap_index := 0, heap_memory := fun _ => 0 }

/-- States of the allocator reachable from program start through the two
operations exported by baremetal.c. -/
inductive Reachable : HeapState → Prop where
  | init : Reachable initial_state
  | alloc (st : HeapState) (n : Nat) : Reachable st → Reachable (simple_alloc st n).2
  | reset (st : HeapState) : Reachable st → Reachable (reset_heap st)

/-- CIRC_BUF_INC macro from utils.h line 372: ((idx) + 1) & ((size) - 1),
on 64-bit unsigned operands. -/
def CIRC_BUF_INC (idx size : Nat) : Nat :=
  ((idx + 1) % UINT64_MOD) &&& usub64 size 1

/-- CIRC_BUF_DEC macro from utils.h line 377: ((idx) - 1) & ((size) - 1),
on 64-bit unsigned operands. -/
def CIRC_BUF_DEC (idx size : Nat) : Nat :=
  usub64 idx 1 &&& usub64 size 1

/-- CIRC_BUF_FULL macro from utils.h lines 382-383. -/
def CIRC_BUF_FULL (head tail size : Nat) : Bool :=
  CIRC_BUF_INC head size == tail

/-- CIRC_BUF_EMPTY macro from utils.h line 388. -/
def CIRC_BUF_EMPTY (head tail : Nat) : Bool :=
  head == tail

/-- CIRC_BUF_COUNT macro from utils.h lines 393-394: ((head) - (tail)) &
((size) - 1), on 64-bit unsigned operands. -/
def CIRC_BUF_COUNT (head tail size : Nat) : Nat :=
  usub64 head tail &&& usub64 size 1

/-- Unfolding of simple_alloc through the ALIGN_UP macro of utils.h: the
inline rounding expression of baremetal.c line 93 is the ALIGN_UP macro
applied to the requested size and ALIGNMENT. -/
theorem simple_alloc_eq (st : HeapState) (size : Nat) :
    simple_alloc st size =
      if (st.heap_index + ALIGN_UP size ALIGNMENT) % UINT64_MOD > HEAP_SIZE then
        (none, st)
      else
        (some st.heap_index,
          { st with heap_index := (st.heap_index + ALIGN_UP size ALIGNMENT) % UINT64_MOD }) :=
  rfl

/-- Masking a 64-bit value with 2 ^ 64 - 4 clears its two low bits: the
result is the value minus its remainder mod 4. -/
theorem land_mask_eq_sub_mod (x : Nat) (hx : x < 2 ^ 64) :
    x &&& (2 ^ 64 - 4) = x - x % 4 := by
  have hsub : x - x % 4 = (x >>> 2) <<< 2 := by
    rw [Nat.shiftRight_eq_div_pow, Nat.shiftLeft_eq]
    have h := Nat.div_add_mod x 4
    have h2 : (2 : Nat) ^ 2 = 4 := by norm_num
    rw [h2]
    omega
  have hmask : (2 ^ 64 - 4 : Nat) = (2 ^ 62 - 1) <<< 2 := by
    rw [Nat.shiftLeft_eq]
    norm_num
  rw [hsub, hmask]
  refine Nat.eq_of_testBit_eq fun i => ?_
  simp only [Nat.testBit_and, Nat.testBit_shiftLeft, Nat.testBit_shiftRight,
    Nat.testBit_two_pow_sub_one, ge_iff_le]
  by_cases h2 : 2 ≤ i
  · by_cases h64 : i < 64
    · have hi2 : 2 + (i - 2) = i := by omega
      simp [h2, hi2, show i - 2 < 62 by omega]
    · have hxi : x.testBit i = false := by
        refine Nat.testBit_lt_two_pow (lt_of_lt_of_le hx ?_)
        exact Nat.pow_le_pow_right (by norm_num) (by omega)
      have hi2 : 2 + (i - 2) = i := by omega
      simp [h2, hi2, hxi, show ¬(i - 2 < 62) by omega]
  · simp [h2]

/-- The complement mask used for 4-byte alignment is 2 ^ 64 - 4. -/
theorem compl64_three : compl64 (ALIGNMENT - 1) = 2 ^ 64 - 4 := by decide

/-- Closed form of ALIGN_UP at the configured alignment 4, including the
64-bit wraparound of the addition size + 3. -/
theorem alignUp4_eq (n : Nat) :
    ALIGN_UP n ALIGNMENT = (n + 3) % UINT64_MOD - (n + 3) % UINT64_MOD % 4 := by
  have h : (n + ALIGNMENT - 1) = n + 3 := rfl
  rw [ALIGN_UP, compl64_three, h]
  exact land_mask_eq_sub_mod _ (Nat.mod_lt _ (by norm_num [UINT64_MOD]))

/-- ALIGN_UP at alignment 4 always produces a multiple of 4, with or without
wraparound. -/
theorem alignUp4_dvd (n : Nat) : 4 ∣ ALIGN_UP n ALIGNMENT := by
  rw [alignUp4_eq]
  have h := Nat.div_add_mod ((n + 3) % UINT64_MOD) 4
  exact ⟨(n + 3) % UINT64_MOD / 4, by omega⟩

/-- When the addition size + 3 does not wrap, ALIGN_UP at alignment 4 is the
mathematical rounding of size up to the next multiple of 4. -/
theorem alignUp4_of_no_overflow (n : Nat) (h : n + 3 < UINT64_MOD) :
    ALIGN_UP n ALIGNMENT = (n + 3) - (n + 3) % 4 := by
  rw [alignUp4_eq, Nat.mod_eq_of_lt h]

/-- C1: from any state with cursor at most the capacity, simple_alloc size
reports out of memory exactly when cursor + ALIGN_UP size ALIGNMENT, computed
in 64-bit unsigned arithmetic as the C code does, exceeds HEAP_SIZE; in that
case no range is returned (the result is absent) and the state, cursor
included, is unchanged.  The embedding is a total function, so the call
always returns and never aborts. -/
theorem simple_alloc_oom_iff (st : HeapState) (n : Nat) (_h : st.heap_index ≤ HEAP_SIZE) :
    ((simple_alloc st n).1 = none ↔
      (st.heap_index + ALIGN_UP n ALIGNMENT) % UINT64_MOD > HEAP_SIZE) ∧
    ((simple_alloc st n).1 = none → (simple_alloc st n).2 = st) := by
  rw [simple_alloc_eq]
  split
  next hc => simp [hc]
  next hc => simp [hc]

/-- Witness for C1 at cursor 4000 and request 200, an exhausting call. -/
theorem simple_alloc_oom_iff_wit :
    (HeapState.mk 4000 (fun _ => 0)).heap_index ≤ HEAP_SIZE ∧
    (((simple_alloc (HeapState.mk 4000 (fun _ => 0)) 200).1 = none ↔
      ((HeapState.mk 4000 (fun _ => 0)).heap_index + ALIGN_UP 200 ALIGNMENT) % UINT64_MOD
        > HEAP_SIZE) ∧
    ((simple_alloc (HeapState.mk 4000 (fun _ => 0)) 200).1 = none →
      (simple_alloc (HeapState.mk 4000 (fun _ => 0)) 200).2 = HeapState.mk 4000 (fun _ => 0))) :=
  ⟨by decide, simple_alloc_oom_iff (HeapState.mk 4000 (fun _ => 0)) 200 (by decide)⟩

/-- C2 counterexample: at the request size 2 ^ 64 - 1 from the start state,
the addition size + ALIGNMENT - 1 wraps mod 2 ^ 64, the computed aligned
size is 0, the call succeeds, yet the claimed range [0, 0 + size) is far
outside the 4096-byte buffer and the aligned size is smaller than the
request. -/
theorem simple_alloc_c2_cex :
    (simple_alloc initial_state (UINT64_MOD - 1)).1 = some 0 ∧
    ALIGN_UP (UINT64_MOD - 1) ALIGNMENT = 0 ∧
    ALIGN_UP (UINT64_MOD - 1) ALIGNMENT < UINT64_MOD - 1 ∧
    HEAP_SIZE < 0 + (UINT64_MOD - 1) := by decide

/-- C2 amended: when neither the rounding addition size + ALIGNMENT - 1 nor
the bump cursor + aligned size wraps mod 2 ^ 64, a successful simple_alloc
returns the range starting at the old cursor, the range [cursor, cursor +
size) lies inside the buffer, and the cursor advances by the aligned size,
which is size rounded up to the next multiple of ALIGNMENT (a multiple of
ALIGNMENT, at least size, below size + ALIGNMENT). -/
theorem simple_alloc_success_spec (st : HeapState) (n off : Nat) (st2 : HeapState)
    (h1 : n + ALIGNMENT - 1 < UINT64_MOD)
    (h2 : st.heap_index + ALIGN_UP n ALIGNMENT < UINT64_MOD)
    (hs : simple_alloc st n = (some off, st2)) :
    off = st.heap_index ∧
    st2.heap_index = st.heap_index + ALIGN_UP n ALIGNMENT ∧
    ALIGNMENT ∣ ALIGN_UP n ALIGNMENT ∧
    n ≤ ALIGN_UP n ALIGNMENT ∧
    ALIGN_UP n ALIGNMENT < n + ALIGNMENT ∧
    st.heap_index + n ≤ HEAP_SIZE := by
  have hA4 : ALIGNMENT = 4 := rfl
  have h3 : n + 3 < UINT64_MOD := by omega
  have ha := alignUp4_of_no_overflow n h3
  have hr : (n + 3) % 4 < 4 := Nat.mod_lt _ (by norm_num)
  have hd := alignUp4_dvd n
  rw [simple_alloc_eq] at hs
  by_cases hc : (st.heap_index + ALIGN_UP n ALIGNMENT) % UINT64_MOD > HEAP_SIZE
  · rw [if_pos hc] at hs
    simp at hs
  · rw [if_neg hc] at hs
    simp only [Prod.mk.injEq, Option.some.injEq] at hs
    obtain ⟨hoff, hst⟩ := hs
    have hc2 : (st.heap_index + ALIGN_UP n ALIGNMENT) % UINT64_MOD ≤ HEAP_SIZE :=
      Nat.le_of_not_lt hc
    rw [Nat.mod_eq_of_lt h2] at hc2
    refine ⟨hoff.symm, ?_, hd, by omega, by omega, by omega⟩
    rw [← hst]
    exact Nat.mod_eq_of_lt h2

/-- Witness for the amended C2 at cursor 8 and request 5: the call returns
offset 8 and advances the cursor to 16. -/
theorem simple_alloc_success_spec_wit :
    5 + ALIGNMENT - 1 < UINT64_MOD ∧
    (HeapState.mk 8 (fun _ => 0)).heap_index + ALIGN_UP 5 ALIGNMENT < UINT64_MOD ∧
    (8 = (HeapState.mk 8 (fun _ => 0)).heap_index ∧
      (HeapState.mk 16 (fun _ => 0)).heap_index =
        (HeapState.mk 8 (fun _ => 0)).heap_index + ALIGN_UP 5 ALIGNMENT ∧
      ALIGNMENT ∣ ALIGN_UP 5 ALIGNMENT ∧
      5 ≤ ALIGN_UP 5 ALIGNMENT ∧
      ALIGN_UP 5 ALIGNMENT < 5 + ALIGNMENT ∧
      (HeapState.mk 8 (fun _ => 0)).heap_index + 5 ≤ HEAP_SIZE) :=
  ⟨by decide, by decide,
    simple_alloc_success_spec (HeapState.mk 8 (fun _ => 0)) 5 8 (HeapState.mk 16 (fun _ => 0))
      (by decide) (by decide) rfl⟩

/-- C3 failing input: allocate 4096 and then allocate 2 ^ 64 - 4096.  The
first call succeeds and leaves the cursor at 4096 with zero free bytes; the
second call wraps heap_index + size mod 2 ^ 64 to 0, passes the
out-of-memory test, and succeeds, so the sum of the aligned sizes of the
successful allocations is 2 ^ 64, far above the capacity 4096.  This
contradicts the out-of-memory contract documented on simple_alloc. -/
theorem simple_alloc_wraparound_bug :
    (simple_alloc initial_state 4096).1 = some 0 ∧
    (simple_alloc initial_state 4096).2.heap_index = 4096 ∧
    (simple_alloc ((simple_alloc initial_state 4096).2) (UINT64_MOD - 4096)).1 = some 4096 ∧
    ALIGN_UP 4096 ALIGNMENT + ALIGN_UP (UINT64_MOD - 4096) ALIGNMENT = UINT64_MOD ∧
    HEAP_SIZE < UINT64_MOD := by decide

/-- C4: the cursor invariant heap_index at most HEAP_SIZE (the lower bound 0
holds by the Nat type) is true at program start, is preserved by every
simple_alloc call, successful or not, and is preserved by reset_heap. -/
theorem heap_cursor_invariant :
    initial_state.heap_index ≤ HEAP_SIZE ∧
    (∀ st n, st.heap_index ≤ HEAP_SIZE → (simple_alloc st n).2.heap_index ≤ HEAP_SIZE) ∧
    (∀ st, (reset_heap st).heap_index ≤ HEAP_SIZE) := by
  refine ⟨by decide, ?_, fun st => Nat.zero_le _⟩
  intro st n h
  rw [simple_alloc_eq]
  split
  next hc => exact h
  next hc => exact Nat.le_of_not_lt hc

/-- Witness for C4: the preservation clause applied at cursor 8, request 5. -/
theorem heap_cursor_invariant_wit :
    (simple_alloc (HeapState.mk 8 (fun _ => 0)) 5).2.heap_index ≤ HEAP_SIZE :=
  heap_cursor_invariant.2.1 (HeapState.mk 8 (fun _ => 0)) 5 (by decide)

/-- C5: immediately after reset_heap the cursor is 0, and an allocation of
any size at most HEAP_SIZE succeeds and returns the range starting at
offset 0. -/
theorem simple_alloc_after_reset (st : HeapState) (n : Nat) (h : n ≤ HEAP_SIZE) :
    (simple_alloc (reset_heap st) n).1 = some 0 := by
  have hU : UINT64_MOD = 18446744073709551616 := by norm_num [UINT64_MOD]
  have hH : HEAP_SIZE = 4096 := rfl
  have ha := alignUp4_of_no_overflow n (by omega)
  have hr : (n + 3) % 4 < 4 := Nat.mod_lt _ (by norm_num)
  have hd := alignUp4_dvd n
  have hc : ¬ (((reset_heap st).heap_index + ALIGN_UP n ALIGNMENT) % UINT64_MOD > HEAP_SIZE) := by
    show ¬ ((0 + ALIGN_UP n ALIGNMENT) % UINT64_MOD > HEAP_SIZE)
    rw [Nat.zero_add, Nat.mod_eq_of_lt (by omega)]
    omega
  rw [simple_alloc_eq, if_neg hc]
  rfl

/-- Witness for C5: after a reset of the start state, a request for the full
capacity succeeds at offset 0. -/
theorem simple_alloc_after_reset_wit :
    HEAP_SIZE ≤ HEAP_SIZE ∧ (simple_alloc (reset_heap initial_state) HEAP_SIZE).1 = some 0 :=
  ⟨Nat.le_refl _, simple_alloc_after_reset initial_state HEAP_SIZE (Nat.le_refl _)⟩

/-- C9: a zero-size request never fails: from any state with cursor at most
the capacity, simple_alloc 0 rounds the size to 0, passes the out-of-memory
test even when the cursor already equals HEAP_SIZE, returns the zero-length
range at the current cursor, and leaves the state unchanged. -/
theorem simple_alloc_zero (st : HeapState) (h : st.heap_index ≤ HEAP_SIZE) :
    simple_alloc st 0 = (some st.heap_index, st) := by
  have hU : UINT64_MOD = 18446744073709551616 := by norm_num [UINT64_MOD]
  have hH : HEAP_SIZE = 4096 := rfl
  have ha : ALIGN_UP 0 ALIGNMENT = 0 := by decide
  rw [simple_alloc_eq, ha, Nat.add_zero, Nat.mod_eq_of_lt (by omega), if_neg (by omega)]

/-- Witness for C9 at a completely exhausted arena, cursor 4096. -/
theorem simple_alloc_zero_wit :
    (HeapState.mk 4096 (fun _ => 0)).heap_index ≤ HEAP_SIZE ∧
    simple_alloc (HeapState.mk 4096 (fun _ => 0)) 0 =
      (some 4096, HeapState.mk 4096 (fun _ => 0)) :=
  ⟨by decide, simple_alloc_zero (HeapState.mk 4096 (fun _ => 0)) (by decide)⟩

/-- Every reachable cursor value is a multiple of 4: it starts at 0, a
successful allocation adds a masked (hence 4-divisible) amount mod 2 ^ 64,
and reset_heap returns it to 0. -/
theorem reachable_dvd (st : HeapState) (h : Reachable st) : 4 ∣ st.heap_index := by
  induction h with
  | init => exact ⟨0, rfl⟩
  | alloc st n _ ih =>
    rw [simple_alloc_eq]
    split
    next => exact ih
    next =>
      show 4 ∣ (st.heap_index + ALIGN_UP n ALIGNMENT) % UINT64_MOD
      rw [Nat.dvd_mod_iff (by norm_num [UINT64_MOD])]
      exact Nat.dvd_add ih (alignUp4_dvd n)
  | reset st _ _ => exact ⟨0, rfl⟩

/-- C8: in every reachable allocator state the cursor is a multiple of the
configured ALIGNMENT, and therefore the start offset of any range handed out
by a successful simple_alloc call from such a state is a multiple of
ALIGNMENT. -/
theorem reachable_cursor_aligned (st : HeapState) (h : Reachable st) :
    ALIGNMENT ∣ st.heap_index ∧
    ∀ n off st2, simple_alloc st n = (some off, st2) → ALIGNMENT ∣ off := by
  refine ⟨reachable_dvd st h, ?_⟩
  intro n off st2 hs
  rw [simple_alloc_eq] at hs
  split at hs
  next => simp at hs
  next =>
    simp only [Prod.mk.injEq, Option.some.injEq] at hs
    rw [← hs.1]
    exact reachable_dvd st h

/-- Witness for C8 at the state reached by one allocation of 5 bytes. -/
theorem reachable_cursor_aligned_wit :
    ALIGNMENT ∣ (simple_alloc initial_state 5).2.heap_index :=
  (reachable_cursor_aligned (simple_alloc initial_state 5).2
    (Reachable.alloc initial_state 5 Reachable.init)).1

/-- my_memset does not touch offsets below the start of the written run. -/
theorem my_memset_lt (mem : Nat → Nat) (p v num i : Nat) (h : i < p) :
    my_memset mem p v num i = mem i := by
  induction num generalizing mem p with
  | zero => rfl
  | succ n ih =>
    show my_memset (fun j => if j = p then v % 256 else mem j) (p + 1) v n i = mem i
    rw [ih _ (p + 1) (by omega)]
    simp [Nat.ne_of_lt h]

/-- my_memset writes value mod 256 at every offset of the written run. -/
theorem my_memset_mem (mem : Nat → Nat) (p v num i : Nat) (h1 : p ≤ i) (h2 : i < p + num) :
    my_memset mem p v num i = v % 256 := by
  induction num generalizing mem p with
  | zero => omega
  | succ n ih =>
    show my_memset (fun j => if j = p then v % 256 else mem j) (p + 1) v n i = v % 256
    by_cases he : i = p
    · rw [my_memset_lt _ _ _ _ _ (by omega)]
      simp [he]
    · exact ih _ (p + 1) (by omega) (by omega)

/-- C10: simple_alloc never writes to the buffer, whether it succeeds or
fails, so every byte of heap_memory is identical before and after the call;
reset_heap sets every byte of the HEAP_SIZE-byte buffer to zero through
my_memset. -/
theorem alloc_frame_reset_zero :
    (∀ st n, (simple_alloc st n).2.heap_memory = st.heap_memory) ∧
    (∀ st i, i < HEAP_SIZE → (reset_heap st).heap_memory i = 0) := by
  constructor
  · intro st n
    rw [simple_alloc_eq]
    split
    next => rfl
    next => rfl
  · intro st i hi
    simp only [reset_heap]
    rw [my_memset_mem st.heap_memory 0 0 HEAP_SIZE i (Nat.zero_le i) (by omega)]

/-- Witness for C10: allocation of 7 bytes from the start state preserves the
buffer, and byte 0 after a reset is zero. -/
theorem alloc_frame_reset_zero_wit :
    (simple_alloc initial_state 7).2.heap_memory = initial_state.heap_memory ∧
    (reset_heap initial_state).heap_memory 0 = 0 :=
  ⟨alloc_frame_reset_zero.1 initial_state 7,
    alloc_frame_reset_zero.2 initial_state 0 (by decide)⟩

/-- Unsigned decrement of a representable power of two: the circular-buffer
mask size - 1. -/
theorem usub64_pow_one (k : Nat) (hk : k ≤ 63) : usub64 (2 ^ k) 1 = 2 ^ k - 1 := by
  have hp : 0 < 2 ^ k := Nat.two_pow_pos k
  have h63 : (2 : Nat) ^ 63 = 9223372036854775808 := by norm_num
  have hle : 2 ^ k ≤ 2 ^ 63 := Nat.pow_le_pow_right (by norm_num) hk
  have hU : UINT64_MOD = 18446744073709551616 := by norm_num [UINT64_MOD]
  show (2 ^ k + (UINT64_MOD - 1 % UINT64_MOD)) % UINT64_MOD = 2 ^ k - 1
  rw [hU]
  rw [show (1 : Nat) % 18446744073709551616 = 1 by norm_num,
    show 2 ^ k + (18446744073709551616 - 1) = (2 ^ k - 1) + 18446744073709551616 by omega,
    Nat.add_mod_right, Nat.mod_eq_of_lt (by omega)]

/-- C6: for every power-of-two capacity 2 ^ k representable in the 64-bit
index type and every index below the capacity, CIRC_BUF_DEC undoes
CIRC_BUF_INC. -/
theorem circ_retreat_advance (k i : Nat) (hk : k ≤ 63) (hi : i < 2 ^ k) :
    CIRC_BUF_DEC (CIRC_BUF_INC i (2 ^ k)) (2 ^ k) = i := by
  have hU : UINT64_MOD = 18446744073709551616 := by norm_num [UINT64_MOD]
  have h63 : (2 : Nat) ^ 63 = 9223372036854775808 := by norm_num
  have hle : 2 ^ k ≤ 2 ^ 63 := Nat.pow_le_pow_right (by norm_num) hk
  have hp : 0 < 2 ^ k := Nat.two_pow_pos k
  have hdvd : (2 : Nat) ^ k ∣ UINT64_MOD := Nat.pow_dvd_pow 2 (by omega)
  have hm := usub64_pow_one k hk
  obtain ⟨m, hm2⟩ : (2 : Nat) ^ k ∣ UINT64_MOD - 2 ^ k := Nat.dvd_sub' hdvd (dvd_refl _)
  rw [hU] at hm2
  rw [CIRC_BUF_INC, CIRC_BUF_DEC, hm, Nat.and_pow_two_sub_one_eq_mod,
    Nat.and_pow_two_sub_one_eq_mod, Nat.mod_mod_of_dvd _ hdvd, usub64,
    Nat.mod_mod_of_dvd _ hdvd, hU]
  rw [show (1 : Nat) % 18446744073709551616 = 1 by norm_num]
  rw [show (i + 1) % 2 ^ k + (18446744073709551616 - 1)
      = ((i + 1) % 2 ^ k + (2 ^ k - 1)) + (18446744073709551616 - 2 ^ k) by omega]
  rw [hm2, Nat.add_mul_mod_self_left, Nat.mod_add_mod]
  rw [show i + 1 + (2 ^ k - 1) = i + 2 ^ k by omega]
  rw [Nat.add_mod_right, Nat.mod_eq_of_lt hi]

/-- Witness for C6 at capacity 8 and index 5. -/
theorem circ_retreat_advance_wit :
    3 ≤ 63 ∧ 5 < 2 ^ 3 ∧ CIRC_BUF_DEC (CIRC_BUF_INC 5 (2 ^ 3)) (2 ^ 3) = 5 :=
  ⟨by decide, by decide, circ_retreat_advance 3 5 (by decide) (by decide)⟩

/-- Remainder by c of a value below 2 * c, written without the remainder
operator. -/
theorem mod_split (x c : Nat) (_hc : 0 < c) (h : x < 2 * c) :
    x % c = if x < c then x else x - c := by
  split
  next h2 => exact Nat.mod_eq_of_lt h2
  next h2 => rw [Nat.mod_eq_sub_mod (by omega), Nat.mod_eq_of_lt (by omega)]

/-- C7: for every representable power-of-two capacity 2 ^ k and cursors
head and tail below the capacity, CIRC_BUF_FULL holds exactly when
CIRC_BUF_COUNT equals capacity - 1. -/
theorem circ_full_iff_count (k h t : Nat) (hk : k ≤ 63) (hh : h < 2 ^ k) (ht : t < 2 ^ k) :
    CIRC_BUF_FULL h t (2 ^ k) = true ↔ CIRC_BUF_COUNT h t (2 ^ k) = 2 ^ k - 1 := by
  have hU : UINT64_MOD = 18446744073709551616 := by norm_num [UINT64_MOD]
  have h63 : (2 : Nat) ^ 63 = 9223372036854775808 := by norm_num
  have hle : 2 ^ k ≤ 2 ^ 63 := Nat.pow_le_pow_right (by norm_num) hk
  have hp : 0 < 2 ^ k := Nat.two_pow_pos k
  have hdvd : (2 : Nat) ^ k ∣ UINT64_MOD := Nat.pow_dvd_pow 2 (by omega)
  have hm := usub64_pow_one k hk
  obtain ⟨m, hm2⟩ : (2 : Nat) ^ k ∣ UINT64_MOD - 2 ^ k := Nat.dvd_sub' hdvd (dvd_refl _)
  rw [hU] at hm2
  rw [CIRC_BUF_FULL, CIRC_BUF_COUNT, CIRC_BUF_INC, hm, Nat.and_pow_two_sub_one_eq_mod,
    Nat.and_pow_two_sub_one_eq_mod, Nat.mod_mod_of_dvd _ hdvd, usub64,
    Nat.mod_mod_of_dvd _ hdvd, beq_iff_eq, hU]
  rw [show t % 18446744073709551616 = t by omega]
  rw [show h + (18446744073709551616 - t) = (h + (2 ^ k - t)) + (18446744073709551616 - 2 ^ k)
      by omega]
  rw [hm2, Nat.add_mul_mod_self_left,
    mod_split (h + 1) _ hp (by omega), mod_split (h + (2 ^ k - t)) _ hp (by omega)]
  split_ifs <;> omega

/-- Witness for C7 at capacity 8, head 7, tail 0. -/
theorem circ_full_iff_count_wit :
    3 ≤ 63 ∧ 7 < 2 ^ 3 ∧ 0 < 2 ^ 3 ∧
    (CIRC_BUF_FULL 7 0 (2 ^ 3) = true ↔ CIRC_BUF_COUNT 7 0 (2 ^ 3) = 2 ^ 3 - 1) :=
  ⟨by decide, by decide, by decide, circ_full_iff_count 3 7 0 (by decide) (by decide) (by decide)⟩
